import Mathlib

/-!
Verification of the Team-Sheldon admin-panel scripts (Scouting.js,
Activity.js, Dashboard.js, notifications.js, user-info-fix.js).

The JavaScript is shallowly embedded:
* JavaScript strings are lists of characters (`JStr`); the code only ever
  compares, lowercases, trims and concatenates them, and for characters in
  the basic plane the JavaScript code-unit order coincides with the
  code-point order used here.
* `a || b` chains on strings and numbers are embedded by `jsChain` /
  `jsChainI`, which skip `undefined` and the falsy values `''` and `0`.
* `Array.prototype.sort(cmp)` is required by the ECMAScript standard to be
  a stable sort; every comparator appearing in this code is induced by a
  total preorder, for which the output of any stable sort is unique, so it
  is embedded by `List.insertionSort` (stable) over the relation
  `cmp a b ≤ 0`.
* fetch outcomes, response statuses and JSON bodies are explicit values;
  machine state (in-memory fields, `localStorage`) is passed explicitly.
-/

/-- A JavaScript string, as its list of characters. -/
abbrev JStr := List Char

/-- The character list of a Lean string literal. -/
def jstr (s : String) : JStr := s.data

/-- JavaScript truthiness of a string: every string except `''` is truthy. -/
def jsTruthyS (s : JStr) : Bool := s ≠ []

/-- `x || y || ...` over possibly-undefined strings: the first defined,
non-empty string of the chain, `none` when there is none.  (JavaScript `||`
returns its last operand when all are falsy; the callers embedded here only
ever chain with a final default or test the result for truthiness, so the
falsy outcomes `''`/`undefined` are collapsed into `none`.) -/
def jsChain : List (Option JStr) → Option JStr
  | [] => none
  | none :: rest => jsChain rest
  | some s :: rest => if s = [] then jsChain rest else some s

/-- `x || y || ... || d`: a `||` chain of strings ending in a default. -/
def jsChainD (xs : List (Option JStr)) (d : JStr) : JStr :=
  (jsChain xs).getD d

/-- `x || y || ...` over possibly-undefined numbers (`0` is falsy). -/
def jsChainI : List (Option Int) → Option Int
  | [] => none
  | none :: rest => jsChainI rest
  | some n :: rest => if n = 0 then jsChainI rest else some n

/-- `x || y || ... || d` over numbers. -/
def jsChainID (xs : List (Option Int)) (d : Int) : Int :=
  (jsChainI xs).getD d

/-- `String.prototype.toLowerCase` (ASCII-faithful). -/
def toLowerJ (s : JStr) : JStr := s.map Char.toLower

/-- `String.prototype.includes`: substring containment. -/
def jsIncludes (s sub : JStr) : Bool := decide (sub <:+: s)

/-- `String.prototype.trim`: strip leading and trailing whitespace. -/
def trimJ (s : JStr) : JStr :=
  (s.dropWhile (fun c => c = ' ')).reverse.dropWhile (fun c => c = ' ') |>.reverse

/-- The value of one record field as the sort comparators see it: a number,
a string, or `undefined` (an absent field). -/
inductive FieldVal
  | int (n : Int)
  | str (s : JStr)
  | undefinedValue
deriving DecidableEq

/-- JavaScript `<` as the comparators of this code use it: numeric on two
numbers, lexicographic on two strings, and false whenever `undefined` is
involved (every comparison with `undefined` is `NaN`-like and yields
`false`).  Each comparator in the source compares values of one field, and
every field is embedded with one uniform shape, so the mixed
number/string case never arises and is also mapped to `false`. -/
def fvLt : FieldVal → FieldVal → Bool
  | .int a, .int b => decide (a < b)
  | .str a, .str b => decide (a < b)
  | _, _ => false

/-- The ordering a comparator of the form
`(a,b) => va < vb ? -dir : va > vb ? dir : 0` asks the sort for: `a` may
come before `b` iff `cmp a b ≤ 0`. -/
def jsCmpLe {α : Type} (key : α → FieldVal) (asc : Bool) (a b : α) : Bool :=
  if asc then ! fvLt (key b) (key a) else ! fvLt (key a) (key b)

instance {α : Type} (key : α → FieldVal) (asc : Bool) :
    DecidableRel (fun a b : α => jsCmpLe key asc a b = true) :=
  fun _ _ => inferInstance

/-- `Array.prototype.sort` with such a comparator: the unique stable sort
for `jsCmpLe`, embedded by insertion sort. -/
def jsStableSort {α : Type} (key : α → FieldVal) (asc : Bool) (l : List α) : List α :=
  l.insertionSort (fun a b => jsCmpLe key asc a b = true)

theorem jsStableSort_perm {α : Type} (key : α → FieldVal) (asc : Bool) (l : List α) :
    (jsStableSort key asc l).Perm l :=
  List.perm_insertionSort _ l

namespace Scouting

/-- A scouting record as `Scouting.js` reads it: every field the code
accesses, each possibly absent.  Team numbers are numeric in this API. -/
structure Team where
  teamNumber : Option Int
  number : Option Int
  teamName : Option JStr
  name : Option JStr
  scoutName : Option JStr
  scout : Option JStr
  scoutedBy : Option JStr
  createdBy : Option JStr
  reliability : Option JStr
  date : Option JStr
  createdAt : Option JStr
  timestamp : Option JStr
deriving DecidableEq

/-- The mutable fields of `ScoutingManager` that the filtering, sorting and
rendering code touches. -/
@[ext]
structure ScoutState where
  allTeams : List Team
  filteredTeams : List Team
  sortField : JStr
  sortDir : JStr
  currentPage : Nat
  teamsPerPage : Nat
deriving DecidableEq

/-- The values of the four filter controls read by `applyFilters`. -/
structure Controls where
  teamSearch : JStr
  reliabilityFilter : JStr
  scoutFilter : JStr
  dateFilter : JStr
deriving DecidableEq

/-- `ScoutingManager.getFieldValue`. -/
def getFieldValue (t : Team) (field : JStr) : FieldVal :=
  if field = jstr "teamNumber" then .int (jsChainID [t.teamNumber, t.number] 0)
  else if field = jstr "teamName" then .str (jsChainD [t.teamName, t.name] [])
  else if field = jstr "scoutName" then
    .str (jsChainD [t.scoutName, t.scout, t.scoutedBy, t.createdBy] [])
  else if field = jstr "date" then .str (jsChainD [t.date, t.createdAt, t.timestamp] [])
  else if field = jstr "reliability" then .str (jsChainD [t.reliability] [])
  else .str []

/-- The filter predicate inside `ScoutingManager.applyFilters`. -/
def teamPred (c : Controls) (t : Team) : Bool :=
  let search := toLowerJ c.teamSearch
  let reliability := c.reliabilityFilter
  let scout := toLowerJ c.scoutFilter
  let date := c.dateFilter
  let teamNumber :=
    toLowerJ (match jsChainI [t.teamNumber, t.number] with
      | some n => (toString n).data
      | none => [])
  let teamName := toLowerJ (jsChainD [t.teamName, t.name] [])
  let scoutName := toLowerJ (jsChainD [t.scoutName, t.scout, t.scoutedBy, t.createdBy] [])
  let reliabilityVal := t.reliability
  let dateVal := jsChain [t.date, t.createdAt, t.timestamp]
  if search ≠ [] ∧
      ¬(jsIncludes teamNumber search ∨ jsIncludes teamName search ∨
        jsIncludes scoutName search) then false
  else if reliability ≠ [] ∧ reliabilityVal ≠ some reliability then false
  else if scout ≠ [] ∧ scoutName ≠ scout then false
  else if jsTruthyS date && (match dateVal with
      | some dv => ! List.isPrefixOf date dv
      | none => false) then false
  else true

/-- `direction === 'asc' ? 'desc' : 'asc'`. -/
def toggleDir (d : JStr) : JStr :=
  if d = jstr "asc" then jstr "desc" else jstr "asc"

/-- `ScoutingManager.sortTeams(field, updateDisplay = false)`: toggle the
direction when re-sorting on the current field, else sort ascending on the
new field; then stable-sort `filteredTeams` by `getFieldValue`.  (The
`updateDisplay` branch only re-renders; rendering is modelled separately.) -/
def sortTeams (s : ScoutState) (field : JStr) : ScoutState :=
  if field = [] then s
  else
    let newField := if s.sortField = field then s.sortField else field
    let newDir :=
      if s.sortField = field then toggleDir s.sortDir else jstr "asc"
    { s with
      sortField := newField
      sortDir := newDir
      filteredTeams :=
        jsStableSort (fun t => getFieldValue t field) (newDir = jstr "asc")
          s.filteredTeams }

/-- `ScoutingManager.applyFilters`: filter `allTeams`, re-sort on the
current sort field, reset to page 1 (then render). -/
def applyFilters (c : Controls) (s : ScoutState) : ScoutState :=
  let s1 := { s with filteredTeams := s.allTeams.filter (teamPred c) }
  let s2 := sortTeams s1 s1.sortField
  { s2 with currentPage := 1 }

/-- What `renderTeams` writes into the `teamsGrid` element. -/
inductive GridContent
  | untouched
  | noTeamsMessage
  | cards (shown : List Team)
deriving DecidableEq

/-- The two DOM elements `renderTeams` touches; an absent element keeps its
previous content (`setElementText` and the grid guard both no-op). -/
structure Dom where
  gridPresent : Bool
  grid : GridContent
  countPresent : Bool
  countText : JStr
deriving DecidableEq

/-- `ScoutingManager.renderTeams`: with no grid element nothing happens;
with no teams the grid shows the placeholder and the count reads
`'0 teams'`; otherwise the current page of teams is rendered and the count
reads `'<n> teams'`. -/
def renderTeams (s : ScoutState) (d : Dom) : Dom :=
  if ¬ d.gridPresent then d
  else if s.filteredTeams.length = 0 then
    { d with
      grid := .noTeamsMessage
      countText := if d.countPresent then jstr "0 teams" else d.countText }
  else
    let start := (s.currentPage - 1) * s.teamsPerPage
    let toShow := (s.filteredTeams.drop start).take s.teamsPerPage
    { d with
      grid := .cards toShow
      countText :=
        if d.countPresent then (toString s.filteredTeams.length).data ++ jstr " teams"
        else d.countText }

/-- `applyFilters` together with the `renderTeams` call it ends with. -/
def applyFiltersRender (c : Controls) (s : ScoutState) (d : Dom) :
    ScoutState × Dom :=
  let s2 := applyFilters c s
  (s2, renderTeams s2 d)

/-- The outcome of the `/api/teams` fetch in `loadTeams`. -/
inductive TeamsFetch
  | okArray (teams : List Team)
  | okNotArray
  | httpError (status : Nat)
  | networkError
deriving DecidableEq

/-- `ScoutingManager.loadTeams`: an ok array response becomes `allTeams`,
every other outcome leaves `allTeams` empty; the `finally` block then runs
`applyFilters` (which renders). -/
def loadTeams (outcome : TeamsFetch) (c : Controls) (s : ScoutState) (d : Dom) :
    ScoutState × Dom :=
  let s1 :=
    { s with
      allTeams :=
        match outcome with
        | .okArray teams => teams
        | .okNotArray => []
        | .httpError _ => []
        | .networkError => [] }
  applyFiltersRender c s1 d

end Scouting

namespace Scouting

/-- A scouting record with only a team number, used at concrete inputs. -/
def numberedTeam (n : Int) : Team :=
  { teamNumber := some n, number := none, teamName := none, name := none,
    scoutName := none, scout := none, scoutedBy := none, createdBy := none,
    reliability := none, date := none, createdAt := none, timestamp := none }

/-- The manager state right after construction, loaded with two teams. -/
def exState : ScoutState :=
  { allTeams := [numberedTeam 1, numberedTeam 2], filteredTeams := [],
    sortField := jstr "teamNumber", sortDir := jstr "asc",
    currentPage := 1, teamsPerPage := 24 }

/-- All four filter controls empty. -/
def exControls : Controls := ⟨[], [], [], []⟩

/-- A page whose `teamsGrid` and `teamsCount` elements both exist. -/
def exDom : Dom := ⟨true, .untouched, true, []⟩

theorem toggleDir_toggleDir_toggleDir (d : JStr) :
    toggleDir (toggleDir (toggleDir d)) = toggleDir d := by
  by_cases h : d = jstr "asc" <;> simp [toggleDir, h]

theorem applyFilters_of_empty_field (c : Controls) (s : ScoutState)
    (hf : s.sortField = []) :
    applyFilters c s =
      { s with filteredTeams := s.allTeams.filter (teamPred c), currentPage := 1 } := by
  simp [applyFilters, sortTeams, hf]

theorem applyFilters_of_ne_field (c : Controls) (s : ScoutState)
    (hf : ¬ s.sortField = []) :
    applyFilters c s =
      { allTeams := s.allTeams
        filteredTeams :=
          jsStableSort (fun t => getFieldValue t s.sortField)
            (toggleDir s.sortDir = jstr "asc") (s.allTeams.filter (teamPred c))
        sortField := s.sortField
        sortDir := toggleDir s.sortDir
        currentPage := 1
        teamsPerPage := s.teamsPerPage } := by
  simp [applyFilters, sortTeams, hf]

end Scouting

namespace Scouting

theorem applyFilters_allTeams (c : Controls) (s : ScoutState) :
    (applyFilters c s).allTeams = s.allTeams := by
  by_cases hf : s.sortField = [] <;>
    simp [applyFilters_of_empty_field, applyFilters_of_ne_field, hf]

theorem applyFilters_sortField (c : Controls) (s : ScoutState) :
    (applyFilters c s).sortField = s.sortField := by
  by_cases hf : s.sortField = [] <;>
    simp [applyFilters_of_empty_field, applyFilters_of_ne_field, hf]

theorem applyFilters_sortDir (c : Controls) (s : ScoutState) :
    (applyFilters c s).sortDir =
      if s.sortField = [] then s.sortDir else toggleDir s.sortDir := by
  by_cases hf : s.sortField = [] <;>
    simp [applyFilters_of_empty_field, applyFilters_of_ne_field, hf]

theorem applyFilters_currentPage (c : Controls) (s : ScoutState) :
    (applyFilters c s).currentPage = 1 := by
  by_cases hf : s.sortField = [] <;>
    simp [applyFilters_of_empty_field, applyFilters_of_ne_field, hf]

theorem applyFilters_teamsPerPage (c : Controls) (s : ScoutState) :
    (applyFilters c s).teamsPerPage = s.teamsPerPage := by
  by_cases hf : s.sortField = [] <;>
    simp [applyFilters_of_empty_field, applyFilters_of_ne_field, hf]

theorem applyFilters_filteredTeams (c : Controls) (s : ScoutState) :
    (applyFilters c s).filteredTeams =
      if s.sortField = [] then s.allTeams.filter (teamPred c)
      else
        jsStableSort (fun t => getFieldValue t s.sortField)
          (toggleDir s.sortDir = jstr "asc") (s.allTeams.filter (teamPred c)) := by
  by_cases hf : s.sortField = [] <;>
    simp [applyFilters_of_empty_field, applyFilters_of_ne_field, hf]

end Scouting

/-- C1: re-running `ScoutingManager.applyFilters` on unchanged inputs is not
idempotent, because it re-runs `sortTeams` on the current sort field and
that toggles the sort direction.  What does hold: the second run produces
the same teams up to order, and the renderer returns to the first run's
exact output every second run (`applyFilters` composed three times equals
`applyFilters` once). -/
theorem c1_applyFilters_rerender_periodic (c : Scouting.Controls)
    (s : Scouting.ScoutState) :
    ((Scouting.applyFilters c (Scouting.applyFilters c s)).filteredTeams).Perm
        ((Scouting.applyFilters c s).filteredTeams) ∧
      Scouting.applyFilters c (Scouting.applyFilters c (Scouting.applyFilters c s)) =
        Scouting.applyFilters c s := by
  constructor
  · by_cases hf : s.sortField = []
    · simp [Scouting.applyFilters_filteredTeams, Scouting.applyFilters_allTeams,
        Scouting.applyFilters_sortField, hf]
    · simp only [Scouting.applyFilters_filteredTeams, Scouting.applyFilters_allTeams,
        Scouting.applyFilters_sortField, Scouting.applyFilters_sortDir, hf, if_neg]
      exact ((jsStableSort_perm _ _ _).trans ((jsStableSort_perm _ _ _).symm)).symm
  · ext1
    · simp [Scouting.applyFilters_allTeams]
    · by_cases hf : s.sortField = [] <;>
        simp [Scouting.applyFilters_filteredTeams, Scouting.applyFilters_allTeams,
          Scouting.applyFilters_sortField, Scouting.applyFilters_sortDir, hf,
          Scouting.toggleDir_toggleDir_toggleDir]
    · simp [Scouting.applyFilters_sortField]
    · by_cases hf : s.sortField = [] <;>
        simp [Scouting.applyFilters_sortDir, Scouting.applyFilters_sortField, hf,
          Scouting.toggleDir_toggleDir_toggleDir]
    · simp [Scouting.applyFilters_currentPage]
    · simp [Scouting.applyFilters_teamsPerPage]

/-- C1 counterexample: from a freshly constructed manager holding two teams
(numbers 1 and 2, sorted ascending by team number) and empty filter
controls, running `applyFilters` twice yields `filteredTeams` in the
opposite order from running it once — the spec's claim that re-rendering
from the same fetched data is idempotent fails. -/
theorem c1_applyFilters_not_idempotent :
    (Scouting.applyFilters Scouting.exControls
        (Scouting.applyFilters Scouting.exControls Scouting.exState)).filteredTeams ≠
      (Scouting.applyFilters Scouting.exControls Scouting.exState).filteredTeams := by
  decide

/-- C2: when the `/api/teams` fetch returns an empty array, after
`loadTeams` (whose `finally` block runs `applyFilters`, which renders) the
team-count element reads exactly `'0 teams'` — provided the grid and count
elements exist on the page (`renderTeams` returns early without a grid, and
`setElementText` skips a missing count element). -/
theorem c2_loadTeams_empty_shows_zero_teams (c : Scouting.Controls)
    (s : Scouting.ScoutState) (d : Scouting.Dom)
    (hg : d.gridPresent = true) (hc : d.countPresent = true) :
    ((Scouting.loadTeams (.okArray []) c s d).2).countText = jstr "0 teams" := by
  by_cases hf : s.sortField = [] <;>
    simp [Scouting.loadTeams, Scouting.applyFiltersRender, Scouting.renderTeams,
      Scouting.applyFilters_filteredTeams, Scouting.applyFilters_allTeams, hg, hc, hf,
      jsStableSort, List.insertionSort]

/-- C2 at a concrete input: both elements present, empty fetched array. -/
theorem c2_loadTeams_empty_shows_zero_teams_witness :
    ((Scouting.loadTeams (.okArray []) Scouting.exControls Scouting.exState
        Scouting.exDom).2).countText = jstr "0 teams" :=
  c2_loadTeams_empty_shows_zero_teams Scouting.exControls Scouting.exState
    Scouting.exDom rfl rfl

namespace Dashboard

/-- What `fetch` inside `Dashboard.safeFetch` can do: reject (a network
error, caught by the `catch`), or resolve to a response with a status and a
body that either parses as JSON (`some` data) or does not (`response.json()`
rejects, which the same `catch` also receives). -/
inductive FetchOutcome (α : Type)
  | throws
  | responds (status : Nat) (jsonBody : Option α)
deriving DecidableEq

/-- `Response.ok`: status in the range 200-299. -/
def respOk (status : Nat) : Bool := 200 ≤ status && status ≤ 299

/-- The `error` tags `safeFetch` returns (its `message` strings carry no
further information and are not modelled). -/
inductive ErrorTag
  | rate_limit
  | api_error
  | network_error
deriving DecidableEq

/-- The value `safeFetch` resolves to. -/
inductive SafeFetchResult (α : Type)
  | success (data : α)
  | failure (error : ErrorTag)
deriving DecidableEq

/-- `Dashboard.safeFetch`: status 429 is checked first, then `ok` responses
have their body parsed (a parse failure lands in the `catch`), every other
status is an API error, and a rejected fetch is a network error. -/
def safeFetch {α : Type} : FetchOutcome α → SafeFetchResult α
  | .throws => .failure .network_error
  | .responds status body =>
    if status = 429 then .failure .rate_limit
    else if respOk status then
      match body with
      | some d => .success d
      | none => .failure .network_error
    else .failure .api_error

/-- The claim as the spec states it: `success` exactly on `ok` responses,
`rate_limit` exactly on 429, `api_error` on every other non-ok status, and
`network_error` exactly when the fetch itself throws. -/
def claimSafeFetchTotal (α : Type) : Prop :=
  ∀ o : FetchOutcome α,
    ((∃ d, safeFetch o = .success d) ↔
        ∃ s b, o = .responds s b ∧ respOk s = true) ∧
      (safeFetch o = .failure .rate_limit ↔ ∃ b, o = .responds 429 b) ∧
      (safeFetch o = .failure .api_error ↔
        ∃ s b, o = .responds s b ∧ respOk s = false ∧ s ≠ 429) ∧
      (safeFetch o = .failure .network_error ↔ o = .throws)

end Dashboard

/-- C3 counterexample: an `ok` (status 200) response whose body fails to
parse as JSON makes `response.json()` reject inside the `try`, so
`safeFetch` returns `network_error` even though the response was ok — the
claimed "success exactly when ok / network_error exactly when fetch throws"
correspondence fails. -/
theorem c3_safeFetch_claim_false : ¬ Dashboard.claimSafeFetchTotal Nat := by
  intro h
  obtain ⟨hsucc, -, -, -⟩ := h (.responds 200 none)
  obtain ⟨d, hd⟩ := hsucc.mpr ⟨200, none, rfl, by decide⟩
  have heval : Dashboard.safeFetch (α := Nat) (.responds 200 none) =
      .failure .network_error := by decide
  rw [heval] at hd
  exact Dashboard.SafeFetchResult.noConfusion hd

/-- C3 amended: `safeFetch` never raises (it is a total function) and maps
every outcome as claimed, except that `success` additionally requires the
ok response's body to parse as JSON; an ok response with an unparseable
body yields `network_error`, alongside a rejected fetch. -/
theorem c3_safeFetch_characterization {α : Type} (o : Dashboard.FetchOutcome α) :
    ((∃ d, Dashboard.safeFetch o = .success d) ↔
        ∃ s b, o = .responds s (some b) ∧ Dashboard.respOk s = true) ∧
      (Dashboard.safeFetch o = .failure .rate_limit ↔
        ∃ b, o = .responds 429 b) ∧
      (Dashboard.safeFetch o = .failure .api_error ↔
        ∃ s b, o = .responds s b ∧ Dashboard.respOk s = false ∧ s ≠ 429) ∧
      (Dashboard.safeFetch o = .failure .network_error ↔
        o = .throws ∨ ∃ s, o = .responds s none ∧ Dashboard.respOk s = true) := by
  rcases o with _ | ⟨s, b⟩
  · simp [Dashboard.safeFetch]
  · by_cases h429 : s = 429
    · subst h429
      rcases b with _ | d <;> simp [Dashboard.safeFetch, Dashboard.respOk]
    · by_cases hok : Dashboard.respOk s = true
      · rcases b with _ | d <;> simp [Dashboard.safeFetch, h429, hok]
      · rcases b with _ | d <;>
          simp [Dashboard.safeFetch, h429, hok, Bool.not_eq_true] at hok ⊢

namespace Notifications

/-- `NotificationManager.MAX_STORED_NOTIFICATIONS` (constructor). -/
def MAX_STORED_NOTIFICATIONS : Nat := 5

/-- `NotificationManager.storeNotification`: read the stored list, and when
it is already at (or beyond) the limit keep only its last
`MAX_STORED_NOTIFICATIONS - 1` entries (`slice(-(MAX-1))`), then append the
new notification and write the list back.  The stored records are opaque
here: the function never inspects them. -/
def storeNotification {α : Type} (stored : List α) (n : α) : List α :=
  let kept :=
    if MAX_STORED_NOTIFICATIONS ≤ stored.length then
      stored.drop (stored.length - (MAX_STORED_NOTIFICATIONS - 1))
    else stored
  kept ++ [n]

theorem storeNotification_length_le {α : Type} (stored : List α) (n : α) :
    (storeNotification stored n).length ≤ MAX_STORED_NOTIFICATIONS := by
  unfold storeNotification MAX_STORED_NOTIFICATIONS
  by_cases h : 5 ≤ stored.length <;> simp [h] <;> omega

end Notifications

/-- C9: the persistent notification list is bounded and append-only at the
tail: one `storeNotification` call always leaves at most
`MAX_STORED_NOTIFICATIONS` (5) entries with the new notification last, and
any non-empty sequence of calls, starting from an arbitrary previously
stored list, also ends with at most 5 entries. -/
theorem c9_storeNotification_bounded_appends {α : Type} (stored : List α)
    (n : α) (ns : List α) :
    (Notifications.storeNotification stored n).length ≤
        Notifications.MAX_STORED_NOTIFICATIONS ∧
      (Notifications.storeNotification stored n).getLast? = some n ∧
      (ns ≠ [] →
        (ns.foldl Notifications.storeNotification stored).length ≤
          Notifications.MAX_STORED_NOTIFICATIONS) := by
  refine ⟨Notifications.storeNotification_length_le stored n, ?_, ?_⟩
  · simp [Notifications.storeNotification]
  · induction ns generalizing stored with
    | nil => intro h; exact absurd rfl h
    | cons x xs ih =>
      intro _hne
      rcases xs with _ | ⟨y, ys⟩
      · simpa using Notifications.storeNotification_length_le stored x
      · simpa using ih (Notifications.storeNotification stored x) (by simp)

namespace TeamSheldonAdmin

/-- `MAX_LOGIN_ATTEMPTS` (constructor, line 1423). -/
def MAX_LOGIN_ATTEMPTS : Nat := 5

/-- `LOCKOUT_DURATION` in milliseconds (constructor, line 1424). -/
def LOCKOUT_DURATION : Int := 15 * 60 * 1000

/-- The record kept under the `admin_login_attempts` storage key. -/
structure AttemptsRecord where
  count : Nat
  timestamp : Int
deriving DecidableEq

/-- The `localStorage` keys `TeamSheldonAdmin` writes. -/
structure AdminStorage where
  adminLoginAttempts : Option AttemptsRecord
  adminToken : Option JStr
  authToken : Option JStr
  userEmail : Option JStr
  userRole : Option JStr
  userName : Option JStr
  adminSessionActive : Option JStr
deriving DecidableEq

/-- The in-memory fields of `TeamSheldonAdmin` the login flow touches,
together with the storage.  (`Date.now()` is passed in explicitly as
`now`.) -/
structure AdminState where
  loginAttempts : Nat
  isAuthenticated : Bool
  isLoggingIn : Bool
  storage : AdminStorage
deriving DecidableEq

/-- The `user` object of a login response (`user.name` / `user.email` /
`user.role` / `user.username` are the fields read). -/
structure LoginUser where
  name : Option JStr
  email : Option JStr
  role : Option JStr
  username : Option JStr
deriving DecidableEq

/-- The response data handed to `handleLoginSuccess`: every field it
reads, each possibly absent. -/
structure LoginResponseData where
  token : Option JStr
  access_token : Option JStr
  authTokenField : Option JStr
  user : Option LoginUser
  userData : Option LoginUser
  name : Option JStr
  username : Option JStr
  email : Option JStr
  role : Option JStr
deriving DecidableEq

/-- `TeamSheldonAdmin.getLoginAttempts`: the stored count, or 0 when the
record is absent or the lockout period has expired since its timestamp. -/
def getLoginAttempts (storage : AdminStorage) (now : Int) : Nat :=
  let data := storage.adminLoginAttempts.getD ⟨0, 0⟩
  if LOCKOUT_DURATION < now - data.timestamp then 0 else data.count

/-- The constructor (line 1431): `this.loginAttempts = this.getLoginAttempts()`,
not yet authenticated, not in the middle of a login. -/
def mkSession (storage : AdminStorage) (now : Int) : AdminState :=
  { loginAttempts := getLoginAttempts storage now
    isAuthenticated := false
    isLoggingIn := false
    storage := storage }

/-- `TeamSheldonAdmin.incrementLoginAttempts`. -/
def incrementLoginAttempts (s : AdminState) (now : Int) : AdminState :=
  { s with
    loginAttempts := s.loginAttempts + 1
    storage :=
      { s.storage with adminLoginAttempts := some ⟨s.loginAttempts + 1, now⟩ } }

/-- `TeamSheldonAdmin.resetLoginAttempts`. -/
def resetLoginAttempts (s : AdminState) : AdminState :=
  { s with
    loginAttempts := 0
    storage := { s.storage with adminLoginAttempts := none } }

/-- `TeamSheldonAdmin.lockAccount`. -/
def lockAccount (s : AdminState) (now : Int) : AdminState :=
  { s with
    storage :=
      { s.storage with adminLoginAttempts := some ⟨MAX_LOGIN_ATTEMPTS, now⟩ } }

/-- `TeamSheldonAdmin.isLocked`: reads only the in-memory counter. -/
def isLocked (s : AdminState) : Bool := MAX_LOGIN_ATTEMPTS ≤ s.loginAttempts

/-- `TeamSheldonAdmin.handleLoginFailure`: count the failure; when no
attempts remain (`attemptsLeft <= 0` on the already-incremented counter),
lock the account. -/
def handleLoginFailure (s : AdminState) (now : Int) : AdminState :=
  let s1 := incrementLoginAttempts s now
  let attemptsLeft : Int := (MAX_LOGIN_ATTEMPTS : Int) - (s1.loginAttempts : Int)
  if attemptsLeft ≤ 0 then lockAccount s1 now else s1

/-- `TeamSheldonAdmin.handleLoginSuccess`: reset the attempt counter; store
the first truthy of `token`/`access_token`/`authToken` under both the
`adminToken` and `authToken` keys (removing both when there is none); store
the user display fields; mark the session active.  (The auth cookie lives
outside the modelled storage.) -/
def handleLoginSuccess (s : AdminState) (ud : LoginResponseData) : AdminState :=
  let s0 := resetLoginAttempts s
  let token := jsChain [ud.token, ud.access_token, ud.authTokenField]
  let st1 :=
    match token with
    | some t => { s0.storage with adminToken := some t, authToken := some t }
    | none => { s0.storage with adminToken := none, authToken := none }
  let defaultUser : LoginUser :=
    { name := some (jsChainD [ud.name, ud.username] (jstr "Admin User"))
      email := some (jsChainD [ud.email] (jstr "admin@teamsheldon.tech"))
      role := some (jsChainD [ud.role] (jstr "Administrator"))
      username := none }
  let user := (ud.user).getD ((ud.userData).getD defaultUser)
  let userEmail := jsChainD [user.email, user.username] (jstr "Loading...")
  let userRole := jsChainD [user.role] (jstr "Loading...")
  let userName := jsChainD [user.name] (userEmail.takeWhile (fun c => c ≠ '@'))
  { s0 with
    isAuthenticated := true
    storage :=
      { st1 with
        userEmail := some userEmail
        userRole := some userRole
        userName := some userName
        adminSessionActive := some (jstr "true") } }

/-- `TeamSheldonAdmin.logout`: clear the in-memory flags and remove the
session marker and both token keys. -/
def logout (s : AdminState) : AdminState :=
  { s with
    isAuthenticated := false
    storage :=
      { s.storage with
        adminSessionActive := none
        adminToken := none
        authToken := none } }

/-- How `handleLogin` dispatches on what `authenticateUser` produced: the
request rejected (`handleLoginError`: notification only), a response it
reads as success (`handleLoginSuccess` with the extracted data), or one it
reads as failure (`handleLoginFailure`). -/
inductive AuthOutcome
  | netError
  | success (ud : LoginResponseData)
  | failure
deriving DecidableEq

/-- `TeamSheldonAdmin.handleLogin`: return immediately (issuing no
authentication request) while a login is in flight or the account is
locked, or when the credentials fail validation; otherwise issue the
request and dispatch on its outcome.  The returned flag records whether a
request was issued. -/
def handleLogin (s : AdminState) (now : Int) (credsValid : Bool)
    (outcome : AuthOutcome) : Bool × AdminState :=
  if s.isLoggingIn || isLocked s then (false, s)
  else if ¬ credsValid then (false, s)
  else
    (true,
      match outcome with
      | .netError => s
      | .success ud => handleLoginSuccess s ud
      | .failure => handleLoginFailure s now)

end TeamSheldonAdmin

namespace TeamSheldonAdmin

theorem handleLoginFailure_loginAttempts (s : AdminState) (now : Int) :
    (handleLoginFailure s now).loginAttempts = s.loginAttempts + 1 := by
  unfold handleLoginFailure
  dsimp only
  split <;> simp [lockAccount, incrementLoginAttempts]

/-- A storage with nothing in it (a first visit). -/
def emptyStorage : AdminStorage := ⟨none, none, none, none, none, none, none⟩

/-- The state after five consecutive login failures at time 0, in the page
session constructed at time 0 over an empty storage. -/
def lockedState : AdminState :=
  (List.replicate 5 (0 : Int)).foldl handleLoginFailure (mkSession emptyStorage 0)

/-- A storage holding the same token under both keys, as
`handleLoginSuccess` leaves it. -/
def pairedStorage : AdminStorage :=
  { emptyStorage with
    adminToken := some (jstr "tok"), authToken := some (jstr "tok") }

end TeamSheldonAdmin

namespace ActivityLogs

/-- The page-level `performLogout` function of Activity.js: it removes
`authToken` (together with the `refreshToken`, `userInfo` and
`loginTimestamp` keys and the session storage, none of which are part of
the modelled storage) — but not `adminToken`. -/
def performLogout (st : TeamSheldonAdmin.AdminStorage) :
    TeamSheldonAdmin.AdminStorage :=
  { st with authToken := none }

end ActivityLogs

namespace Analytics

/-- The `catch` branch of `Analytics.init` (the Analytics dashboard is
bundled into the Scouting.js build): a failed token verification removes
only the `authToken` key before redirecting. -/
def authFailureCleanup (st : TeamSheldonAdmin.AdminStorage) :
    TeamSheldonAdmin.AdminStorage :=
  { st with authToken := none }

end Analytics

/-- C4 counterexample: from a state where both keys hold the same token
(as `handleLoginSuccess` leaves them), the page-level `performLogout` of
Activity.js removes only `authToken` and leaves `adminToken` set — so
there is a point at which exactly one of the two keys holds a token,
refuting the claim's closing invariant.  The Analytics auth-failure path
does the same. -/
theorem c4_performLogout_leaves_admin_token :
    (ActivityLogs.performLogout TeamSheldonAdmin.pairedStorage).authToken = none ∧
      (ActivityLogs.performLogout TeamSheldonAdmin.pairedStorage).adminToken =
        some (jstr "tok") ∧
      (Analytics.authFailureCleanup TeamSheldonAdmin.pairedStorage).authToken =
        none ∧
      (Analytics.authFailureCleanup TeamSheldonAdmin.pairedStorage).adminToken =
        some (jstr "tok") :=
  ⟨rfl, rfl, rfl, rfl⟩

/-- C4 amended: `handleLoginSuccess` and `TeamSheldonAdmin.logout` do keep
the duplicate keys in lockstep — both set to the extracted token or both
removed, and both removed on logout — but the lockstep is not an
invariant of the whole program: the page-level `performLogout`
(Activity.js) and the Analytics auth-failure cleanup each remove only
`authToken`, leaving whatever `adminToken` held in place. -/
theorem c4_token_keys_lockstep (s : TeamSheldonAdmin.AdminState)
    (ud : TeamSheldonAdmin.LoginResponseData)
    (stg : TeamSheldonAdmin.AdminStorage) :
    ((TeamSheldonAdmin.handleLoginSuccess s ud).storage.adminToken =
        jsChain [ud.token, ud.access_token, ud.authTokenField] ∧
      (TeamSheldonAdmin.handleLoginSuccess s ud).storage.authToken =
        jsChain [ud.token, ud.access_token, ud.authTokenField]) ∧
      (TeamSheldonAdmin.handleLoginSuccess s ud).storage.adminToken =
        (TeamSheldonAdmin.handleLoginSuccess s ud).storage.authToken ∧
      (TeamSheldonAdmin.logout s).storage.adminToken = none ∧
      (TeamSheldonAdmin.logout s).storage.authToken = none ∧
      (ActivityLogs.performLogout stg).adminToken = stg.adminToken ∧
      (ActivityLogs.performLogout stg).authToken = none ∧
      (Analytics.authFailureCleanup stg).adminToken = stg.adminToken ∧
      (Analytics.authFailureCleanup stg).authToken = none := by
  cases h : jsChain [ud.token, ud.access_token, ud.authTokenField] <;>
    simp [TeamSheldonAdmin.handleLoginSuccess, TeamSheldonAdmin.logout,
      TeamSheldonAdmin.resetLoginAttempts, h, ActivityLogs.performLogout,
      Analytics.authFailureCleanup]

/-- C10 counterexample: after five failures at time 0, once
`LOCKOUT_DURATION` (15 min) has elapsed `getLoginAttempts` does report 0,
yet `handleLogin` in the same page session still returns without issuing a
request — `isLocked` only reads the in-memory counter, which no amount of
elapsed time resets, so login is not "possible again" as claimed. -/
theorem c10_lockout_outlives_duration :
    TeamSheldonAdmin.getLoginAttempts TeamSheldonAdmin.lockedState.storage 900001 = 0 ∧
      TeamSheldonAdmin.isLocked TeamSheldonAdmin.lockedState = true ∧
      (TeamSheldonAdmin.handleLogin TeamSheldonAdmin.lockedState 900001 true
          .netError).1 = false := by
  decide

/-- C10 amended: five consecutive failures lock the session
(`isLocked`), and a locked session never issues an authentication request
no matter how much time has passed; each failure stamps the storage record
with its own time; once `LOCKOUT_DURATION` has elapsed since the last
recorded failure, `getLoginAttempts` reports 0, so a session constructed
after that point starts unlocked and issues requests again (in-page, only
a successful login resets the counter, which it does to 0). -/
theorem c10_lockout_behaviour (s : TeamSheldonAdmin.AdminState)
    (st : TeamSheldonAdmin.AdminStorage) (ts : List Int) (now tf : Int)
    (c : Nat) (v : Bool) (o : TeamSheldonAdmin.AuthOutcome)
    (ud : TeamSheldonAdmin.LoginResponseData) :
    (ts.foldl TeamSheldonAdmin.handleLoginFailure s).loginAttempts =
        s.loginAttempts + ts.length ∧
      (s.loginAttempts = 0 → ts.length = 5 →
        TeamSheldonAdmin.isLocked (ts.foldl TeamSheldonAdmin.handleLoginFailure s) =
          true) ∧
      (TeamSheldonAdmin.isLocked s = true →
        TeamSheldonAdmin.handleLogin s now v o = (false, s)) ∧
      ((TeamSheldonAdmin.handleLoginFailure s tf).storage.adminLoginAttempts.map
          TeamSheldonAdmin.AttemptsRecord.timestamp = some tf) ∧
      (TeamSheldonAdmin.LOCKOUT_DURATION < now - tf →
        TeamSheldonAdmin.getLoginAttempts
            { st with adminLoginAttempts := some ⟨c, tf⟩ } now = 0 ∧
          (TeamSheldonAdmin.handleLogin
              (TeamSheldonAdmin.mkSession
                { st with adminLoginAttempts := some ⟨c, tf⟩ } now) now true o).1 =
            true) ∧
      (TeamSheldonAdmin.handleLoginSuccess s ud).loginAttempts = 0 := by
  have hcount : ∀ (l : List Int) (s0 : TeamSheldonAdmin.AdminState),
      (l.foldl TeamSheldonAdmin.handleLoginFailure s0).loginAttempts =
        s0.loginAttempts + l.length := by
    intro l
    induction l with
    | nil => intro s0; simp
    | cons x xs ih =>
      intro s0
      simp [List.foldl_cons, ih, TeamSheldonAdmin.handleLoginFailure_loginAttempts]
      omega
  refine ⟨hcount ts s, ?_, ?_, ?_, ?_, ?_⟩
  · intro h0 h5
    simp [TeamSheldonAdmin.isLocked, hcount ts s, h0, h5,
      TeamSheldonAdmin.MAX_LOGIN_ATTEMPTS]
  · intro hlock
    simp [TeamSheldonAdmin.handleLogin, hlock]
  · unfold TeamSheldonAdmin.handleLoginFailure
    dsimp only
    split <;>
      simp [TeamSheldonAdmin.lockAccount, TeamSheldonAdmin.incrementLoginAttempts]
  · intro helapsed
    have hga : TeamSheldonAdmin.getLoginAttempts
        { st with adminLoginAttempts := some ⟨c, tf⟩ } now = 0 := by
      simp [TeamSheldonAdmin.getLoginAttempts, helapsed]
    refine ⟨hga, ?_⟩
    simp [TeamSheldonAdmin.handleLogin, TeamSheldonAdmin.mkSession, hga,
      TeamSheldonAdmin.isLocked, TeamSheldonAdmin.MAX_LOGIN_ATTEMPTS]
  · simp [TeamSheldonAdmin.handleLoginSuccess, TeamSheldonAdmin.resetLoginAttempts]

/-- Spec-side definition (`first-non-empty selection`): the first defined,
non-empty value of a fallback chain, or the default.  Used to compare the
code's reconciliation against the spec's description. -/
def specFirstNonEmpty : List (Option JStr) → JStr → JStr
  | [], d => d
  | none :: rest, d => specFirstNonEmpty rest d
  | some s :: rest, d => if s = [] then specFirstNonEmpty rest d else s

theorem specFirstNonEmpty_eq_jsChain (xs : List (Option JStr)) (d : JStr) :
    specFirstNonEmpty xs d = (jsChain xs).getD d := by
  induction xs with
  | nil => rfl
  | cons x rest ih =>
    cases x with
    | none => simpa [specFirstNonEmpty, jsChain] using ih
    | some s =>
      by_cases hs : s = [] <;> simp [specFirstNonEmpty, jsChain, hs, ih]

theorem jsChain_ne_some_nil (xs : List (Option JStr)) : jsChain xs ≠ some [] := by
  induction xs with
  | nil => simp [jsChain]
  | cons x rest ih =>
    cases x with
    | none => simpa [jsChain] using ih
    | some s =>
      by_cases hs : s = [] <;> simp [jsChain, hs, ih]

namespace ActivityLogs

/-- A user-profile record as `ActivityLogsManager.updateUserDisplay` reads
it. -/
structure UserInfo where
  username : Option JStr
  name : Option JStr
  role : Option JStr
  userRole : Option JStr
  email : Option JStr
  userEmail : Option JStr
deriving DecidableEq

/-- `ActivityLogsManager.updateUserDisplay`: the three sidebar texts. -/
def updateUserDisplay (u : UserInfo) : JStr × JStr × JStr :=
  (jsChainD [u.username, u.name] (jstr "Admin User"),
    jsChainD [u.role, u.userRole] (jstr "Administrator"),
    jsChainD [u.email, u.userEmail] (jstr "admin@teamsheldon.tech"))

end ActivityLogs

namespace UserInfoFix

/-- The `localStorage` keys `loadUserInfoWithFallbacks` reads. -/
structure Store where
  username : Option JStr
  userEmail : Option JStr
  user : Option JStr
  adminUsername : Option JStr
  userRole : Option JStr
  role : Option JStr
  adminRole : Option JStr
  email : Option JStr
deriving DecidableEq

/-- `loadUserInfoWithFallbacks` (user-info-fix.js): chained storage
lookups; a username containing `@` is split at the first `@`, its full
value becoming the email fallback and its local part the username; then
defaults are applied.  Returns the `(username, userRole, userEmail)`
triple handed to `updateUserInfoElements`. -/
def loadUserInfoWithFallbacks (st : Store) : JStr × JStr × JStr :=
  let username0 := jsChain [st.username, st.userEmail, st.user, st.adminUsername]
  let userRole0 := jsChainD [st.userRole, st.role, st.adminRole] (jstr "Administrator")
  let userEmail0 := jsChain [st.userEmail, st.email, st.username]
  let atFix :=
    match username0 with
    | some u =>
      if u.contains '@' then
        (some (u.takeWhile (fun c => c ≠ '@')),
          match userEmail0 with
          | some e => some e
          | none => some u)
      else (some u, userEmail0)
    | none => (none, userEmail0)
  let username2 :=
    match atFix.1 with
    | none => jstr "Admin User"
    | some u => if u = [] then jstr "Admin User" else u
  let userEmail2 :=
    match atFix.2 with
    | none =>
      if username2.contains '@' then username2 else jstr "admin@teamsheldon.tech"
    | some e =>
      if e = [] then
        (if username2.contains '@' then username2 else jstr "admin@teamsheldon.tech")
      else e
  let userRole2 := if userRole0 = [] then jstr "Administrator" else userRole0
  (username2, userRole2, userEmail2)

/-- Spec-side: the username `loadUserInfoWithFallbacks` actually displays —
the first non-empty chain value, except that a value containing `@` is
truncated to its part before the first `@` (with the default when that
part is empty). -/
def specUsernameAtFix (st : Store) : JStr :=
  let raw := specFirstNonEmpty [st.username, st.userEmail, st.user, st.adminUsername] []
  if raw = [] then jstr "Admin User"
  else if raw.contains '@' then
    (if raw.takeWhile (fun c => c ≠ '@') = [] then jstr "Admin User"
      else raw.takeWhile (fun c => c ≠ '@'))
  else raw

/-- Spec-side: the role is a plain first-non-empty selection. -/
def specRoleFix (st : Store) : JStr :=
  specFirstNonEmpty [st.userRole, st.role, st.adminRole] (jstr "Administrator")

/-- Spec-side: the email is the first non-empty email-chain value, else the
full username-chain value when that contains `@`, else the default. -/
def specEmailFix (st : Store) : JStr :=
  let e := specFirstNonEmpty [st.userEmail, st.email, st.username] []
  if e ≠ [] then e
  else
    let raw := specFirstNonEmpty [st.username, st.userEmail, st.user, st.adminUsername] []
    if raw.contains '@' then raw else jstr "admin@teamsheldon.tech"

/-- The claim as the spec states it, for both reconcilers: every displayed
field is the plain first non-empty value of its fallback chain. -/
def claimFirstNonEmptySelection : Prop :=
  (∀ u : ActivityLogs.UserInfo,
      ActivityLogs.updateUserDisplay u =
        (specFirstNonEmpty [u.username, u.name] (jstr "Admin User"),
          specFirstNonEmpty [u.role, u.userRole] (jstr "Administrator"),
          specFirstNonEmpty [u.email, u.userEmail] (jstr "admin@teamsheldon.tech"))) ∧
    ∀ st : Store,
      loadUserInfoWithFallbacks st =
        (specFirstNonEmpty [st.username, st.userEmail, st.user, st.adminUsername]
            (jstr "Admin User"),
          specFirstNonEmpty [st.userRole, st.role, st.adminRole]
            (jstr "Administrator"),
          specFirstNonEmpty [st.userEmail, st.email, st.username]
            (jstr "admin@teamsheldon.tech"))

/-- A storage holding only `username = 'bob@x.com'`. -/
def atStore : Store :=
  { username := some (jstr "bob@x.com"), userEmail := none, user := none,
    adminUsername := none, userRole := none, role := none, adminRole := none,
    email := none }

end UserInfoFix

/-- C5 counterexample: with only `username = 'bob@x.com'` in storage,
`loadUserInfoWithFallbacks` displays the username `'bob'` — the local part
of the stored value, not the first non-empty value of the fallback chain
(`'bob@x.com'`), so plain first-non-empty selection does not describe the
reconciliation. -/
theorem c5_first_nonempty_claim_false : ¬ UserInfoFix.claimFirstNonEmptySelection := by
  intro h
  have h2 := h.2 UserInfoFix.atStore
  have h1 : (UserInfoFix.loadUserInfoWithFallbacks UserInfoFix.atStore).1 =
      jstr "bob" := by decide
  rw [h2] at h1
  exact absurd h1 (by decide)

/-- C5 amended: `updateUserDisplay` is exactly first-non-empty selection
with the claimed defaults; `loadUserInfoWithFallbacks` is first-non-empty
selection for the role, while its username truncates a value containing
`@` to the part before the first `@` (that full value then serving as the
email fallback), and its email falls back to the full `@`-containing
username-chain value before the default. -/
theorem c5_user_fields_reconciliation (u : ActivityLogs.UserInfo)
    (st : UserInfoFix.Store) :
    ActivityLogs.updateUserDisplay u =
        (specFirstNonEmpty [u.username, u.name] (jstr "Admin User"),
          specFirstNonEmpty [u.role, u.userRole] (jstr "Administrator"),
          specFirstNonEmpty [u.email, u.userEmail] (jstr "admin@teamsheldon.tech")) ∧
      UserInfoFix.loadUserInfoWithFallbacks st =
        (UserInfoFix.specUsernameAtFix st, UserInfoFix.specRoleFix st,
          UserInfoFix.specEmailFix st) := by
  constructor
  · simp [ActivityLogs.updateUserDisplay, jsChainD, specFirstNonEmpty_eq_jsChain]
  · have hrchain := jsChain_ne_some_nil [st.userRole, st.role, st.adminRole]
    have huchain := jsChain_ne_some_nil [st.username, st.userEmail, st.user, st.adminUsername]
    have hechain := jsChain_ne_some_nil [st.userEmail, st.email, st.username]
    unfold UserInfoFix.loadUserInfoWithFallbacks UserInfoFix.specUsernameAtFix
      UserInfoFix.specRoleFix UserInfoFix.specEmailFix
    dsimp only
    simp only [specFirstNonEmpty_eq_jsChain, jsChainD, Prod.mk.injEq]
    refine ⟨?_, ?_, ?_⟩
    · rcases hu : jsChain [st.username, st.userEmail, st.user, st.adminUsername] with _ | u0
      · simp [hu]
      · have hune : u0 ≠ [] := by intro hh; exact huchain (hh ▸ hu)
        by_cases hat : '@' ∈ u0
        · by_cases htw : u0.takeWhile (fun c => c ≠ '@') = [] <;>
            simp [hu, hune, hat, htw]
        · simp [hu, hune, hat]
    · rcases hr : jsChain [st.userRole, st.role, st.adminRole] with _ | r0
      · simp [hr]
      · have hrne : r0 ≠ [] := by intro hh; exact hrchain (hh ▸ hr)
        simp [hr, hrne]
    · rcases he : jsChain [st.userEmail, st.email, st.username] with _ | e0
      · rcases hu : jsChain [st.username, st.userEmail, st.user, st.adminUsername] with _ | u0
        · simp only [hu, he]
          decide
        · have hune : u0 ≠ [] := by intro hh; exact huchain (hh ▸ hu)
          by_cases hat : '@' ∈ u0 <;> simp [hu, he, hune, hat]
      · have hene : e0 ≠ [] := by intro hh; exact hechain (hh ▸ he)
        rcases hu : jsChain [st.username, st.userEmail, st.user, st.adminUsername] with _ | u0
        · simp [hu, he, hene]
        · have hune : u0 ≠ [] := by intro hh; exact huchain (hh ▸ hu)
          by_cases hat : '@' ∈ u0 <;> simp [hu, he, hene, hune, hat]

namespace ActivityLogs

/-- A processed log entry as `loadActivityLogs` builds it: `username`
(defaulted to `'Unknown'`) and `status` (always produced by
`convertSuccessToStatus`) are present strings, but the mapping gives
`timestamp` (`entry.timestamp`) and `ipAddress`
(`entry.ip || entry.ipAddress`) no default, so either may be
`undefined`. -/
structure LogEntry where
  timestamp : Option JStr
  ipAddress : Option JStr
  username : JStr
  status : JStr
deriving DecidableEq

/-- `this.currentSort`. -/
structure SortSpec where
  field : JStr
  direction : JStr
deriving DecidableEq

/-- The mutable fields of `ActivityLogsManager` that filtering and sorting
touch. -/
structure LogsState where
  allLogs : List LogEntry
  filteredLogs : List LogEntry
  totalLogs : Nat
  currentPage : Nat
  currentSort : SortSpec
deriving DecidableEq

/-- `a[field]` on a log entry: the four table columns (two of them
possibly `undefined`), `undefined` otherwise. -/
def getLogField (l : LogEntry) (field : JStr) : Option JStr :=
  if field = jstr "timestamp" then l.timestamp
  else if field = jstr "ipAddress" then l.ipAddress
  else if field = jstr "username" then some l.username
  else if field = jstr "status" then some l.status
  else none

/-- The value the `sortLogs` comparator compares.  For the timestamp field
it is `new Date(aVal)`: the parser `dp` (the browser builtin, passed in
explicitly) returns `none` for a string that parses to an Invalid Date,
and `new Date(undefined)` is Invalid too; an Invalid Date is `NaN`, whose
`<` comparisons are false both ways, exactly like an `undefined` field —
both are `FieldVal.undefinedValue`. -/
def logKey (dp : JStr → Option Int) (field : JStr) (l : LogEntry) : FieldVal :=
  if field = jstr "timestamp" then
    match l.timestamp with
    | some ts =>
      match dp ts with
      | some n => .int n
      | none => .undefinedValue
    | none => .undefinedValue
  else
    match getLogField l field with
    | some s => .str s
    | none => .undefinedValue

/-- `ActivityLogsManager.sortLogs(field, direction = null)`: a null
direction toggles when re-sorting the current field and otherwise starts
descending; then `currentSort` is set and `filteredLogs` stable-sorted by
the field's key.  (The `updateDisplay` branch only re-renders.) -/
def sortLogs (dp : JStr → Option Int) (s : LogsState) (field : JStr)
    (direction : Option JStr) : LogsState :=
  let dir :=
    match direction with
    | none =>
      if s.currentSort.field = field then
        (if s.currentSort.direction = jstr "asc" then jstr "desc" else jstr "asc")
      else jstr "desc"
    | some d => d
  { s with
    currentSort := ⟨field, dir⟩
    filteredLogs :=
      jsStableSort (logKey dp field) (dir = jstr "asc") s.filteredLogs }

/-- The values of the three filter controls `applyFilters` reads.  The
date input is represented by the start-of-day instant the code computes
from it (`new Date(value)` + `setHours(0,0,0,0)`, a browser builtin),
`none` when empty. -/
structure LogControls where
  dateFilter : Option Int
  ipAddress : JStr
  status : JStr
deriving DecidableEq

/-- The day window used by the date filter. -/
def MS_PER_DAY : Int := 24 * 60 * 60 * 1000

/-- The date filter of `applyFilters`: keep the entries whose
`new Date(log.timestamp)` falls inside the selected day.  A missing or
unparseable timestamp is `NaN`, whose `>=`/`<` comparisons are false, so
such entries are silently excluded. -/
def dateFilteredLogs (dp : JStr → Option Int) (c : LogControls)
    (l : List LogEntry) : List LogEntry :=
  match c.dateFilter with
  | none => l
  | some d0 =>
    l.filter (fun e =>
      match e.timestamp with
      | some ts =>
        match dp ts with
        | some t => decide (d0 ≤ t) && decide (t < d0 + MS_PER_DAY)
        | none => false
      | none => false)

/-- The IP filter traversal of `applyFilters`:
`log.ipAddress.toLowerCase()` throws a TypeError on an entry whose
`ipAddress` is `undefined` (the `none` result), and `applyFilters` has no
try/catch around it. -/
def filterByIp (ip : JStr) : List LogEntry → Option (List LogEntry)
  | [] => some []
  | e :: rest =>
    match e.ipAddress with
    | none => none
    | some a =>
      match filterByIp ip rest with
      | none => none
      | some r =>
        some (if jsIncludes (toLowerJ a) (toLowerJ ip) then e :: r else r)

/-- The three sequential filters of `ActivityLogsManager.applyFilters`
over `[...this.allLogs]`; `none` when the IP filter throws. -/
def filterLogs (dp : JStr → Option Int) (c : LogControls)
    (l : List LogEntry) : Option (List LogEntry) :=
  let f1 := dateFilteredLogs dp c l
  let ip := trimJ c.ipAddress
  match (if ip = [] then some f1 else filterByIp ip f1) with
  | none => none
  | some f2 =>
    some (if c.status = [] then f2 else f2.filter (fun e => e.status = c.status))

/-- `ActivityLogsManager.applyFilters`: filter, store the results, reset
to page 1, then re-sort with the current field and explicit current
direction (no toggle).  When the IP filter throws, the exception escapes
`applyFilters` before `filteredLogs`, `totalLogs` or `currentPage` are
assigned: the result is `none` and the state is unchanged. -/
def applyFilters (dp : JStr → Option Int) (c : LogControls)
    (s : LogsState) : Option LogsState :=
  match filterLogs dp c s.allLogs with
  | none => none
  | some filtered =>
    some
      (sortLogs dp
        { s with
          filteredLogs := filtered, totalLogs := filtered.length, currentPage := 1 }
        s.currentSort.field (some s.currentSort.direction))

/-- Spec-side: one log entry satisfies every active filter — within the
selected day (with a parseable timestamp), IP defined and containing the
(case-insensitive, trimmed) substring, status equal to the selection. -/
def logPred (dp : JStr → Option Int) (c : LogControls) (e : LogEntry) : Bool :=
  (match c.dateFilter with
    | none => true
    | some d0 =>
      match e.timestamp with
      | some ts =>
        match dp ts with
        | some t => decide (d0 ≤ t) && decide (t < d0 + MS_PER_DAY)
        | none => false
      | none => false) &&
    (decide (trimJ c.ipAddress = []) ||
      (match e.ipAddress with
        | some a => jsIncludes (toLowerJ a) (toLowerJ (trimJ c.ipAddress))
        | none => false)) &&
    (decide (c.status = []) || decide (e.status = c.status))

theorem filterByIp_eq_none_iff (ip : JStr) (l : List LogEntry) :
    filterByIp ip l = none ↔ ∃ e ∈ l, e.ipAddress = none := by
  induction l with
  | nil => simp [filterByIp]
  | cons e rest ih =>
    cases ha : e.ipAddress with
    | none => simp [filterByIp, ha]
    | some a =>
      cases hr : filterByIp ip rest with
      | none =>
        simp only [filterByIp, ha, hr]
        simp [ha, ih.mp hr]
      | some r =>
        simp only [filterByIp, ha, hr]
        have hnone : ¬ ∃ e ∈ rest, e.ipAddress = none := by
          intro hex
          rw [← ih] at hex
          exact absurd (hr ▸ hex) (by simp)
        simp [ha]
        intro x hx
        exact fun hxn => hnone ⟨x, hx, hxn⟩

theorem filterByIp_eq_filter (ip : JStr) (l : List LogEntry)
    (h : ∀ e ∈ l, e.ipAddress ≠ none) :
    filterByIp ip l =
      some (l.filter (fun e =>
        match e.ipAddress with
        | some a => jsIncludes (toLowerJ a) (toLowerJ ip)
        | none => false)) := by
  induction l with
  | nil => simp [filterByIp]
  | cons e rest ih =>
    cases ha : e.ipAddress with
    | none => exact absurd ha (h e (by simp))
    | some a =>
      rw [List.filter_cons]
      simp only [filterByIp, ha,
        ih (fun x hx => h x (List.mem_cons_of_mem _ hx))]

theorem filterLogs_none_iff (dp : JStr → Option Int) (c : LogControls)
    (l : List LogEntry) :
    filterLogs dp c l = none ↔
      (trimJ c.ipAddress ≠ [] ∧
        ∃ e ∈ dateFilteredLogs dp c l, e.ipAddress = none) := by
  unfold filterLogs
  by_cases hip : trimJ c.ipAddress = []
  · simp [hip]
  · simp only [hip, if_neg, if_false]
    cases hf : filterByIp (trimJ c.ipAddress) (dateFilteredLogs dp c l) with
    | none => simp [hf, hip, (filterByIp_eq_none_iff _ _).mp hf]
    | some r =>
      have : ¬ ∃ e ∈ dateFilteredLogs dp c l, e.ipAddress = none := by
        rw [← filterByIp_eq_none_iff (trimJ c.ipAddress)]
        simp [hf]
      simp [hf, hip, this]

theorem filterLogs_eq_filter (dp : JStr → Option Int) (c : LogControls)
    (l : List LogEntry)
    (h : trimJ c.ipAddress = [] ∨
      ∀ e ∈ dateFilteredLogs dp c l, e.ipAddress ≠ none) :
    filterLogs dp c l = some (l.filter (logPred dp c)) := by
  have key : ∀ f2 : List LogEntry,
      f2 = (dateFilteredLogs dp c l).filter (fun e =>
          decide (trimJ c.ipAddress = []) ||
            (match e.ipAddress with
              | some a => jsIncludes (toLowerJ a) (toLowerJ (trimJ c.ipAddress))
              | none => false)) →
      (if c.status = [] then f2 else f2.filter (fun e => e.status = c.status)) =
        l.filter (logPred dp c) := by
    intro f2 hf2
    subst hf2
    unfold logPred dateFilteredLogs
    rcases hd : c.dateFilter with _ | d0 <;>
      by_cases hst : c.status = [] <;>
        simp [hd, hst, List.filter_filter] <;>
          exact List.filter_congr (fun x hx => by
            simp only [Bool.and_comm, Bool.and_left_comm, Bool.and_assoc])
  unfold filterLogs
  by_cases hip : trimJ c.ipAddress = []
  · simp only [hip, if_pos]
    rw [key (dateFilteredLogs dp c l) ?side]
    case side =>
      simp [hip]
  · have hdef := h.resolve_left hip
    simp only [hip, if_neg, if_false]
    rw [filterByIp_eq_filter _ _ hdef]
    dsimp only
    rw [key _ ?side]
    case side =>
      apply List.filter_congr
      intro x hx
      simp [hip]

end ActivityLogs

/-- For a comparator keyed through a linear order (numbers, or strings in
lexicographic order), the stable sort's output is pairwise ordered by the
comparator. -/
theorem jsStableSort_pairwise {α β : Type} [LinearOrder β] (inj : β → FieldVal)
    (hinj : ∀ x y, fvLt (inj x) (inj y) = decide (x < y)) (g : α → β)
    (asc : Bool) (l : List α) :
    List.Pairwise (fun a b => jsCmpLe (fun x => inj (g x)) asc a b = true)
      (jsStableSort (fun x => inj (g x)) asc l) := by
  cases asc with
  | true =>
    have hle : ∀ a b : α, (jsCmpLe (fun x => inj (g x)) true a b = true) ↔
        g a ≤ g b := by
      intro a b
      simp [jsCmpLe, hinj, not_lt]
    unfold jsStableSort
    haveI : IsTotal α (fun a b => jsCmpLe (fun x => inj (g x)) true a b = true) :=
      ⟨fun a b => by
        simp only [hle]
        exact le_total (g a) (g b)⟩
    haveI : IsTrans α (fun a b => jsCmpLe (fun x => inj (g x)) true a b = true) :=
      ⟨fun a b c hab hbc => by
        simp only [hle] at hab hbc ⊢
        exact le_trans hab hbc⟩
    exact List.sorted_insertionSort _ l
  | false =>
    have hle : ∀ a b : α, (jsCmpLe (fun x => inj (g x)) false a b = true) ↔
        g b ≤ g a := by
      intro a b
      simp [jsCmpLe, hinj, not_lt]
    unfold jsStableSort
    haveI : IsTotal α (fun a b => jsCmpLe (fun x => inj (g x)) false a b = true) :=
      ⟨fun a b => by
        simp only [hle]
        exact le_total (g b) (g a)⟩
    haveI : IsTrans α (fun a b => jsCmpLe (fun x => inj (g x)) false a b = true) :=
      ⟨fun a b c hab hbc => by
        simp only [hle] at hab hbc ⊢
        exact le_trans hbc hab⟩
    exact List.sorted_insertionSort _ l

/-- An ordered insertion only ever compares the inserted element with list
members, so relations agreeing there insert identically. -/
theorem orderedInsert_rel_congr {α : Type} (r s : α → α → Prop)
    [DecidableRel r] [DecidableRel s] (a : α) (l : List α)
    (h : ∀ b ∈ l, r a b ↔ s a b) :
    l.orderedInsert r a = l.orderedInsert s a := by
  induction l with
  | nil => rfl
  | cons b m ih =>
    by_cases hr : r a b
    · rw [List.orderedInsert, List.orderedInsert, if_pos hr,
        if_pos ((h b (by simp)).mp hr)]
    · rw [List.orderedInsert, List.orderedInsert, if_neg hr,
        if_neg (fun hs => hr ((h b (by simp)).mpr hs)),
        ih (fun x hx => h x (List.mem_cons_of_mem _ hx))]

/-- Insertion sort only ever compares list members, so relations agreeing
on them sort identically. -/
theorem insertionSort_rel_congr {α : Type} (r s : α → α → Prop)
    [DecidableRel r] [DecidableRel s] (l : List α)
    (h : ∀ a ∈ l, ∀ b ∈ l, r a b ↔ s a b) :
    l.insertionSort r = l.insertionSort s := by
  induction l with
  | nil => rfl
  | cons a m ih =>
    rw [List.insertionSort, List.insertionSort,
      ih (fun x hx y hy =>
        h x (List.mem_cons_of_mem _ hx) y (List.mem_cons_of_mem _ hy))]
    exact orderedInsert_rel_congr r s a _ (fun b hb =>
      h a (by simp) b
        (List.mem_cons_of_mem _ ((List.perm_insertionSort s m).subset hb)))

/-- Sortedness of the stable sort when the key is linearly ordered on the
list's members (elsewhere it may be `undefined`/`NaN`). -/
theorem jsStableSort_pairwise_of_mem {α β : Type} [LinearOrder β]
    (inj : β → FieldVal) (hinj : ∀ x y, fvLt (inj x) (inj y) = decide (x < y))
    (key : α → FieldVal) (g : α → β) (asc : Bool) (l : List α)
    (hkey : ∀ a ∈ l, key a = inj (g a)) :
    List.Pairwise (fun a b => jsCmpLe key asc a b = true)
      (jsStableSort key asc l) := by
  have hre : ∀ a ∈ l, ∀ b ∈ l,
      ((jsCmpLe key asc a b = true) ↔
        (jsCmpLe (fun x => inj (g x)) asc a b = true)) := by
    intro a ha b hb
    unfold jsCmpLe
    rw [hkey a ha, hkey b hb]
  have heq : jsStableSort key asc l = jsStableSort (fun x => inj (g x)) asc l :=
    insertionSort_rel_congr _ _ l hre
  rw [heq]
  refine (jsStableSort_pairwise inj hinj g asc l).imp_of_mem ?_
  intro a b ha hb hr
  have ha2 : a ∈ l := (jsStableSort_perm _ _ _).subset ha
  have hb2 : b ∈ l := (jsStableSort_perm _ _ _).subset hb
  unfold jsCmpLe at hr ⊢
  rw [hkey a ha2, hkey b hb2]
  exact hr

namespace ActivityLogs

/-- The four sortable table columns (`th[onclick="sortLogs(...)"]`). -/
def sortableLogFields : List JStr :=
  [jstr "timestamp", jstr "ipAddress", jstr "username", jstr "status"]

theorem logKey_ipAddress (dp : JStr → Option Int) :
    logKey dp (jstr "ipAddress") = fun l =>
      match l.ipAddress with
      | some a => FieldVal.str a
      | none => FieldVal.undefinedValue := by
  funext l
  rw [logKey, if_neg (by decide), getLogField, if_neg (by decide), if_pos rfl]

theorem logKey_username (dp : JStr → Option Int) :
    logKey dp (jstr "username") = fun l => FieldVal.str l.username := by
  funext l
  rw [logKey, if_neg (by decide), getLogField, if_neg (by decide),
    if_neg (by decide), if_pos rfl]

theorem logKey_status (dp : JStr → Option Int) :
    logKey dp (jstr "status") = fun l => FieldVal.str l.status := by
  funext l
  rw [logKey, if_neg (by decide), getLogField, if_neg (by decide),
    if_neg (by decide), if_neg (by decide), if_pos rfl]

end ActivityLogs

namespace ActivityLogs

/-- A date parser for concrete inputs: `d5`/`d3` parse to instants 5 and
3, every other string is an Invalid Date (`NaN`). -/
def exParseN : JStr → Option Int := fun s =>
  if s = jstr "d5" then some 5
  else if s = jstr "d3" then some 3
  else none

/-- A log whose timestamp parses to 5. -/
def exLogDate5 : LogEntry :=
  { timestamp := some (jstr "d5"), ipAddress := some (jstr "10.0.0.1"),
    username := jstr "alice", status := jstr "success" }

/-- A log whose timestamp does not parse. -/
def exLogNaN : LogEntry :=
  { timestamp := some (jstr "bad"), ipAddress := some (jstr "10.0.0.2"),
    username := jstr "bob", status := jstr "failed" }

/-- A log whose timestamp parses to 3. -/
def exLogDate3 : LogEntry :=
  { timestamp := some (jstr "d3"), ipAddress := some (jstr "10.0.0.3"),
    username := jstr "carol", status := jstr "success" }

/-- A state whose filtered logs are date-5, then unparseable, then date-3. -/
def exStateN : LogsState :=
  { allLogs := [exLogDate5, exLogNaN, exLogDate3],
    filteredLogs := [exLogDate5, exLogNaN, exLogDate3],
    totalLogs := 3, currentPage := 1,
    currentSort := ⟨jstr "timestamp", jstr "asc"⟩ }

/-- A log entry the mapping can produce: no `ip`/`ipAddress` field. -/
def exLogNoIp : LogEntry :=
  { timestamp := none, ipAddress := none,
    username := jstr "dave", status := jstr "unknown" }

/-- A state that has loaded only the IP-less log. -/
def exStateNoIp : LogsState :=
  { allLogs := [exLogNoIp], filteredLogs := [], totalLogs := 0,
    currentPage := 3, currentSort := ⟨jstr "timestamp", jstr "asc"⟩ }

/-- A concrete total date parser for the C6 witness. -/
def exParse : JStr → Option Int := fun s => some (s.length : Int)

/-- A concrete log entry with every field present. -/
def exLogA : LogEntry :=
  { timestamp := some (jstr "2024-01-02T10:00:00Z"),
    ipAddress := some (jstr "10.0.0.2"),
    username := jstr "alice", status := jstr "success" }

/-- A second concrete log entry with every field present. -/
def exLogB : LogEntry :=
  { timestamp := some (jstr "2024-01-01"),
    ipAddress := some (jstr "10.0.0.1"),
    username := jstr "bob", status := jstr "failed" }

/-- A concrete manager state holding the two logs. -/
def exLogsState : LogsState :=
  { allLogs := [exLogA, exLogB], filteredLogs := [exLogA, exLogB],
    totalLogs := 2, currentPage := 1,
    currentSort := ⟨jstr "timestamp", jstr "asc"⟩ }

end ActivityLogs

/-- C6 counterexample: with an unparseable (`NaN`) timestamp between two
parseable ones, the stable sort leaves the list in its original order —
every comparison against the `NaN` key returns 0 — so the output
`[date 5, NaN, date 3]` of an ascending sort on `timestamp` is not
non-decreasing by date: sortedness fails on the real program. -/
theorem c6_nan_timestamp_breaks_order :
    ¬ List.Pairwise
        (fun a b =>
          jsCmpLe (ActivityLogs.logKey ActivityLogs.exParseN (jstr "timestamp"))
            ((jstr "asc") = jstr "asc") a b = true)
        ((ActivityLogs.sortLogs ActivityLogs.exParseN ActivityLogs.exStateN
            (jstr "timestamp") (some (jstr "asc"))).filteredLogs) := by
  decide

/-- C6 amended: `sortLogs` with an explicit direction permutes
`filteredLogs`, leaves `allLogs` alone and records the sort, and a
no-direction call on the current field flips the direction; its output is
comparator-ordered (ascending: no later entry with a smaller key,
descending reversed, timestamps keyed through the date parser) only when
every sorted entry's key is defined — a missing field or Invalid-Date
(`NaN`) timestamp ties with everything and can leave comparable entries
out of order. -/
theorem c6_sortLogs_correct (dp : JStr → Option Int)
    (s : ActivityLogs.LogsState) (field d : JStr)
    (hfield : field ∈ ActivityLogs.sortableLogFields) :
    ((ActivityLogs.sortLogs dp s field (some d)).filteredLogs).Perm
        s.filteredLogs ∧
      (ActivityLogs.sortLogs dp s field (some d)).allLogs = s.allLogs ∧
      (ActivityLogs.sortLogs dp s field (some d)).currentSort = ⟨field, d⟩ ∧
      ((∀ e ∈ s.filteredLogs,
          ActivityLogs.logKey dp field e ≠ FieldVal.undefinedValue) →
        List.Pairwise
          (fun a b =>
            jsCmpLe (ActivityLogs.logKey dp field) (d = jstr "asc") a b = true)
          ((ActivityLogs.sortLogs dp s field (some d)).filteredLogs)) ∧
      (s.currentSort.field = field →
        (ActivityLogs.sortLogs dp s field none).currentSort =
          ⟨field,
            if s.currentSort.direction = jstr "asc" then jstr "desc"
            else jstr "asc"⟩) := by
  refine ⟨?_, ?_, ?_, ?_, ?_⟩
  · simpa [ActivityLogs.sortLogs] using
      jsStableSort_perm (ActivityLogs.logKey dp field) _ s.filteredLogs
  · simp [ActivityLogs.sortLogs]
  · simp [ActivityLogs.sortLogs]
  · intro hdef
    have hfl : (ActivityLogs.sortLogs dp s field (some d)).filteredLogs =
        jsStableSort (ActivityLogs.logKey dp field) (d = jstr "asc")
          s.filteredLogs := by
      simp [ActivityLogs.sortLogs]
    rw [hfl]
    have hcases : field = jstr "timestamp" ∨ field = jstr "ipAddress" ∨
        field = jstr "username" ∨ field = jstr "status" := by
      simpa [ActivityLogs.sortableLogFields] using hfield
    rcases hcases with h | h | h | h <;> subst h
    · refine jsStableSort_pairwise_of_mem FieldVal.int (fun x y => rfl) _
        (fun e =>
          match ActivityLogs.logKey dp (jstr "timestamp") e with
          | .int n => n
          | _ => 0) _ _ ?_
      intro e he
      have hne := hdef e he
      cases hts : e.timestamp with
      | none => exact absurd (by simp [ActivityLogs.logKey, hts]) hne
      | some ts =>
        cases hdp : dp ts with
        | none => exact absurd (by simp [ActivityLogs.logKey, hts, hdp]) hne
        | some n => simp [ActivityLogs.logKey, hts, hdp]
    · refine jsStableSort_pairwise_of_mem FieldVal.str (fun x y => rfl) _
        (fun e =>
          match e.ipAddress with
          | some a => a
          | none => []) _ _ ?_
      intro e he
      have hne := hdef e he
      rw [ActivityLogs.logKey_ipAddress] at hne ⊢
      cases ha : e.ipAddress with
      | none => exact absurd (by simp [ha]) hne
      | some a => simp [ha]
    · rw [ActivityLogs.logKey_username]
      exact jsStableSort_pairwise FieldVal.str (fun x y => rfl)
        (fun l : ActivityLogs.LogEntry => l.username) _ _
    · rw [ActivityLogs.logKey_status]
      exact jsStableSort_pairwise FieldVal.str (fun x y => rfl)
        (fun l : ActivityLogs.LogEntry => l.status) _ _
  · intro h
    simp [ActivityLogs.sortLogs, h]

/-- C6 at a concrete input: sorting the two-entry state (all keys
defined) on `timestamp` ascending permutes its filtered logs. -/
theorem c6_sortLogs_correct_witness :
    ((ActivityLogs.sortLogs ActivityLogs.exParse ActivityLogs.exLogsState
          (jstr "timestamp") (some (jstr "asc"))).filteredLogs).Perm
      ActivityLogs.exLogsState.filteredLogs :=
  (c6_sortLogs_correct ActivityLogs.exParse ActivityLogs.exLogsState
      (jstr "timestamp") (jstr "asc") (by decide)).1

/-- The claim C7 formalised as stated: `applyFilters` always completes,
setting `filteredLogs` to exactly the logs passing every active filter
(up to the re-sort), leaving `allLogs` unchanged and resetting the page. -/
def ActivityLogs.claimApplyFiltersExact : Prop :=
  ∀ (dp : JStr → Option Int) (c : ActivityLogs.LogControls)
    (s : ActivityLogs.LogsState),
    ∃ s', ActivityLogs.applyFilters dp c s = some s' ∧
      s'.filteredLogs.Perm (s.allLogs.filter (ActivityLogs.logPred dp c)) ∧
      s'.allLogs = s.allLogs ∧
      s'.currentPage = 1

/-- C7 counterexample: with the IP filter set to `'10'` and a loaded log
whose `ipAddress` is `undefined`, `log.ipAddress.toLowerCase()` throws a
TypeError out of `applyFilters`, which therefore sets neither
`filteredLogs` nor `currentPage` — the claim's universal exactness
fails. -/
theorem c7_undefined_ip_throws : ¬ ActivityLogs.claimApplyFiltersExact := by
  intro h
  obtain ⟨s', hs', -⟩ :=
    h (fun _ => none) ⟨none, jstr "10", []⟩ ActivityLogs.exStateNoIp
  rw [show ActivityLogs.applyFilters (fun _ => none) ⟨none, jstr "10", []⟩
      ActivityLogs.exStateNoIp = none from rfl] at hs'
  exact Option.noConfusion hs'

/-- C7 amended: `applyFilters` throws (completing nothing) exactly when
the IP filter is active and some entry surviving the date filter has no
`ipAddress`; whenever it completes, it is exact as claimed — the new
`filteredLogs` holds precisely the logs passing every active filter (up
to the re-sort's reordering), `allLogs` is untouched, `totalLogs` counts
them, and the page resets to 1. -/
theorem c7_applyFilters_exact_or_throws (dp : JStr → Option Int)
    (c : ActivityLogs.LogControls) (s : ActivityLogs.LogsState) :
    (ActivityLogs.applyFilters dp c s = none ↔
        trimJ c.ipAddress ≠ [] ∧
          ∃ e ∈ ActivityLogs.dateFilteredLogs dp c s.allLogs,
            e.ipAddress = none) ∧
      ∀ s', ActivityLogs.applyFilters dp c s = some s' →
        s'.filteredLogs.Perm (s.allLogs.filter (ActivityLogs.logPred dp c)) ∧
          s'.allLogs = s.allLogs ∧
          s'.totalLogs = (s.allLogs.filter (ActivityLogs.logPred dp c)).length ∧
          s'.currentPage = 1 := by
  constructor
  · rw [← ActivityLogs.filterLogs_none_iff dp c s.allLogs]
    unfold ActivityLogs.applyFilters
    cases hf : ActivityLogs.filterLogs dp c s.allLogs <;> simp [hf]
  · intro s' hs'
    have hnn : ActivityLogs.filterLogs dp c s.allLogs ≠ none := by
      intro hf
      unfold ActivityLogs.applyFilters at hs'
      rw [hf] at hs'
      exact Option.noConfusion hs'
    have hside : trimJ c.ipAddress = [] ∨
        ∀ e ∈ ActivityLogs.dateFilteredLogs dp c s.allLogs,
          e.ipAddress ≠ none := by
      by_cases hip : trimJ c.ipAddress = []
      · exact Or.inl hip
      · refine Or.inr (fun e he hen => ?_)
        exact hnn ((ActivityLogs.filterLogs_none_iff dp c s.allLogs).mpr
          ⟨hip, e, he, hen⟩)
    have hfeq := ActivityLogs.filterLogs_eq_filter dp c s.allLogs hside
    unfold ActivityLogs.applyFilters at hs'
    rw [hfeq] at hs'
    have hs2 : s' = ActivityLogs.sortLogs dp
        { s with
          filteredLogs := s.allLogs.filter (ActivityLogs.logPred dp c)
          totalLogs := (s.allLogs.filter (ActivityLogs.logPred dp c)).length
          currentPage := 1 }
        s.currentSort.field (some s.currentSort.direction) := by
      cases hs'
      rfl
    subst hs2
    refine ⟨?_, ?_, ?_, ?_⟩
    · simpa [ActivityLogs.sortLogs] using
        jsStableSort_perm
          (ActivityLogs.logKey dp s.currentSort.field) _
          (s.allLogs.filter (ActivityLogs.logPred dp c))
    · simp [ActivityLogs.sortLogs]
    · simp [ActivityLogs.sortLogs]
    · simp [ActivityLogs.sortLogs]

namespace ActivityLogs

/-- What one `fetch` call does: reject, or resolve with a status. -/
inductive FetchOut
  | throws
  | status (n : Nat)
deriving DecidableEq

/-- A failed fetch in the spec's sense: the promise rejected, or the
response was not ok. -/
def fetchFailed : FetchOut → Bool
  | .throws => true
  | .status n => ! (200 ≤ n && n ≤ 299)

/-- The endpoints the two functions call. -/
def healthUrl : JStr := jstr "/health"

/-- The login-history endpoint. -/
def historyUrl : JStr := jstr "/api/login-history"

/-- The admin-dashboard endpoint. -/
def dashboardUrl : JStr := jstr "/api/admin/dashboard"

/-- The second half of `checkAPIStatus`: after the health check fails (non-ok
or thrown), a HEAD request to the login-history endpoint decides the
indicator: online unless it returns 404 (a second throw means offline). -/
def checkAPIFallback (second : FetchOut) : List JStr × Bool :=
  match second with
  | .status m => ([healthUrl, historyUrl], decide (m ≠ 404))
  | .throws => ([healthUrl, historyUrl], false)

/-- `ActivityLogsManager.checkAPIStatus`: the requests it issues and the
resulting online flag of the status indicators. -/
def checkAPIStatusTrace (health second : FetchOut) : List JStr × Bool :=
  match health with
  | .status n =>
    if 200 ≤ n && n ≤ 299 then ([healthUrl], true)
    else checkAPIFallback second
  | .throws => checkAPIFallback second

/-- `ActivityLogsManager.loadActivityLogs`: the requests it issues — the
admin-dashboard endpoint, then, unless that response was ok and carried
both `statistics` and `analytics` (`dashComplete`), the login-history
endpoint. -/
def loadActivityLogsTrace (dash : FetchOut) (dashComplete : Bool) : List JStr :=
  match dash with
  | .status n =>
    if (200 ≤ n && n ≤ 299) && dashComplete then [dashboardUrl]
    else [dashboardUrl, historyUrl]
  | .throws => [dashboardUrl, historyUrl]

/-- The claim as the spec states it: a failed fetch triggers no further
request — the trace stops at the failed primary request. -/
def claimNoAutomaticFallback : Prop :=
  ∀ (health second dash : FetchOut) (dashComplete : Bool),
    (fetchFailed health = true →
        (checkAPIStatusTrace health second).1 = [healthUrl]) ∧
      (fetchFailed dash = true →
        loadActivityLogsTrace dash dashComplete = [dashboardUrl])

end ActivityLogs

/-- C8 counterexample: when the `/health` fetch throws, `checkAPIStatus`
automatically issues a second request, to `/api/login-history` — an
automatic fallback request to another endpoint, which the claim rules
out. -/
theorem c8_failure_triggers_fallback_request : ¬ ActivityLogs.claimNoAutomaticFallback := by
  intro h
  have h1 := (h .throws (.status 200) .throws true).1 rfl
  exact absurd h1 (by decide)

/-- C8 amended: on primary failure, `checkAPIStatus` and
`loadActivityLogs` each issue exactly one automatic fallback request to a
different endpoint — never a repeat of the failed request and never more
than two requests per invocation — and a successful primary request (for
`loadActivityLogs`, one also carrying the complete dashboard payload)
stops after one request. -/
theorem c8_fallback_is_single_and_distinct (health second dash : ActivityLogs.FetchOut)
    (dashComplete : Bool) :
    (ActivityLogs.checkAPIStatusTrace health second).1.length ≤ 2 ∧
      (ActivityLogs.checkAPIStatusTrace health second).1.Nodup ∧
      (ActivityLogs.fetchFailed health = false →
        (ActivityLogs.checkAPIStatusTrace health second).1 =
          [ActivityLogs.healthUrl]) ∧
      (ActivityLogs.loadActivityLogsTrace dash dashComplete).length ≤ 2 ∧
      (ActivityLogs.loadActivityLogsTrace dash dashComplete).Nodup ∧
      (ActivityLogs.fetchFailed dash = false → dashComplete = true →
        ActivityLogs.loadActivityLogsTrace dash dashComplete = [ActivityLogs.dashboardUrl]) := by
  have halt : ∀ h s : ActivityLogs.FetchOut,
      (ActivityLogs.checkAPIStatusTrace h s).1 = [ActivityLogs.healthUrl] ∨
        (ActivityLogs.checkAPIStatusTrace h s).1 =
          [ActivityLogs.healthUrl, ActivityLogs.historyUrl] := by
    intro h s
    rcases h with _ | n
    · rcases s with _ | m <;> simp [ActivityLogs.checkAPIStatusTrace,
        ActivityLogs.checkAPIFallback]
    · by_cases hok : 200 ≤ n ∧ n ≤ 299
      · left
        simp [ActivityLogs.checkAPIStatusTrace, hok.1, hok.2]
      · right
        rcases s with _ | m <;> simp [ActivityLogs.checkAPIStatusTrace,
          ActivityLogs.checkAPIFallback, hok]
  have hdalt : ∀ (d : ActivityLogs.FetchOut) (dc : Bool),
      ActivityLogs.loadActivityLogsTrace d dc = [ActivityLogs.dashboardUrl] ∨
        ActivityLogs.loadActivityLogsTrace d dc =
          [ActivityLogs.dashboardUrl, ActivityLogs.historyUrl] := by
    intro d dc
    rcases d with _ | n
    · simp [ActivityLogs.loadActivityLogsTrace]
    · by_cases hok : (200 ≤ n ∧ n ≤ 299) ∧ dc = true
      · left
        simp [ActivityLogs.loadActivityLogsTrace, hok.1.1, hok.1.2, hok.2]
      · right
        simp only [ActivityLogs.loadActivityLogsTrace]
        rw [if_neg (by simpa using hok)]
  refine ⟨?_, ?_, ?_, ?_, ?_, ?_⟩
  · rcases halt health second with h | h <;> rw [h] <;> decide
  · rcases halt health second with h | h <;> rw [h] <;> decide
  · intro hok
    rcases health with _ | n
    · exact absurd hok (by simp [ActivityLogs.fetchFailed])
    · simp [ActivityLogs.fetchFailed] at hok
      simp [ActivityLogs.checkAPIStatusTrace, hok.1, hok.2]
  · rcases hdalt dash dashComplete with h | h <;> rw [h] <;> decide
  · rcases hdalt dash dashComplete with h | h <;> rw [h] <;> decide
  · intro hok hc
    rcases dash with _ | n
    · exact absurd hok (by simp [ActivityLogs.fetchFailed])
    · simp [ActivityLogs.fetchFailed] at hok
      simp [ActivityLogs.loadActivityLogsTrace, hok.1, hok.2, hc]
